import Mathlib

/-
Verification of the docker-pty-proxy session bridge (package handler).

The Go handler couples one websocket transport to one docker exec session.
It runs two copy loops: an outbound loop reading from the hijacked exec
stream and forwarding non-empty reads as binary frames, and an inbound loop
reading websocket frames, demultiplexing inline resize commands (JSON text
frames whose first byte is an opening brace and whose type field equals
the string resize) from raw terminal input.  External collaborators (the
docker client, the websocket library, json.Unmarshal) are modelled as
oracles: each loop consumes a list of pre-determined interaction outcomes
and produces the trace of observable actions the handler performs.
-/

namespace PtyProxy

/-- Bytes are modelled as natural numbers (values 0 through 255). -/
abbrev Byte := Nat

/-- ASCII code of the opening brace character; the inbound loop compares the
first payload byte against it before attempting a JSON unmarshal. -/
def braceByte : Byte := 123

/-- Size of the outbound read buffer (constant readBufSize in the source). -/
def readBufSize : Nat := 4096

/-- Write deadline in seconds for outbound websocket writes (constant
writeDeadline in the source). -/
def writeDeadlineSeconds : Nat := 10

/-- Result of json.Unmarshal into the handler's resizeMsg struct: fields
Type, Cols, Rows with json tags type, cols, rows.  Cols and Rows are Go
uint values, modelled as Nat. -/
structure ResizeMsg where
  type : String
  cols : Nat
  rows : Nat
deriving Repr, DecidableEq

/-- Observable actions performed by the two copy loops of attachHandler. -/
inductive Event where
  /-- ws.WriteMessage(BinaryMessage, bytes) invoked by the outbound loop. -/
  | wsWrite (bytes : List Byte)
  /-- log line: write to websocket failed. -/
  | logWsWriteFail
  /-- log line: read from docker failed (non-EOF read error). -/
  | logDockerReadFail
  /-- cli.ContainerExecResize invoked with Width cols and Height rows. -/
  | execResizeCall (cols rows : Nat)
  /-- log line: resize failed. -/
  | logResizeFail
  /-- hijack.Conn.Write(payload) invoked by the inbound loop. -/
  | execWrite (payload : List Byte)
  /-- log line: write to docker failed. -/
  | logDockerWriteFail
  /-- log line: read from websocket failed (unexpected close). -/
  | logWsReadFail
deriving Repr, DecidableEq

/-- Classification of an event as an error log line. -/
def isErrorLog : Event → Bool
  | .logWsWriteFail => true
  | .logDockerReadFail => true
  | .logResizeFail => true
  | .logDockerWriteFail => true
  | .logWsReadFail => true
  | _ => false

/-- Payloads of ws.WriteMessage(BinaryMessage, _) calls in a trace. -/
def wsWrites (es : List Event) : List (List Byte) :=
  es.filterMap fun e =>
    match e with
    | .wsWrite b => some b
    | _ => none

/-- Payloads of hijack.Conn.Write calls in a trace. -/
def execWrites (es : List Event) : List (List Byte) :=
  es.filterMap fun e =>
    match e with
    | .execWrite p => some p
    | _ => none

/-- Arguments (cols, rows) of ContainerExecResize calls in a trace. -/
def resizeCalls (es : List Event) : List (Nat × Nat) :=
  es.filterMap fun e =>
    match e with
    | .execResizeCall c r => some (c, r)
    | _ => none

/-! ## Inbound loop (websocket to docker) -/

/-- One outcome of ws.ReadMessage together with the oracle outcomes of the
calls the inbound loop would make while handling it: whether a
ContainerExecResize call would fail, and whether a hijack.Conn.Write call
would fail. -/
inductive WsMsg where
  /-- ws.ReadMessage returned an error; the flag records whether
  websocket.IsUnexpectedCloseError holds for it (which decides logging). -/
  | readErr (unexpectedClose : Bool)
  /-- ws.ReadMessage returned a frame of type websocket.CloseMessage. -/
  | closeMsg
  /-- ws.ReadMessage returned a data frame with the given payload. -/
  | data (payload : List Byte) (resizeFails : Bool) (writeFails : Bool)
deriving Repr, DecidableEq

/-- Guarded unmarshal mirroring the source: the payload is treated as a
resize command exactly when its first byte is an opening brace,
json.Unmarshal succeeds, and the Type field equals the string resize.
The parse argument is the oracle for json.Unmarshal (none models a
non-nil unmarshal error). -/
def classify (parse : List Byte → Option ResizeMsg) (p : List Byte) :
    Option ResizeMsg :=
  if p.head? = some braceByte then
    match parse p with
    | some msg => if msg.type = "resize" then some msg else none
    | none => none
  else none

/-- One iteration of the inbound loop: the events it performs and whether
the loop continues to the next iteration. -/
def inboundStep (parse : List Byte → Option ResizeMsg) (m : WsMsg) :
    List Event × Bool :=
  match m with
  | .readErr u => (if u then [.logWsReadFail] else [], false)
  | .closeMsg => ([], false)
  | .data p rf wf =>
    if p.isEmpty then ([], true)
    else
      match classify parse p with
      | some msg =>
        (.execResizeCall msg.cols msg.rows ::
          (if rf then [.logResizeFail] else []), true)
      | none =>
        (.execWrite p :: (if wf then [.logDockerWriteFail] else []), !wf)

/-- Trace of the inbound loop run on a list of read outcomes; the loop
stops at the first outcome whose step does not continue, and outcomes
beyond the list model a still-blocked read. -/
def inboundLoop (parse : List Byte → Option ResizeMsg) :
    List WsMsg → List Event
  | [] => []
  | m :: rest =>
    let s := inboundStep parse m
    s.1 ++ (if s.2 then inboundLoop parse rest else [])

/-! ## Outbound loop (docker to websocket) -/

/-- Error component of a hijack.Reader.Read result. -/
inductive ReadErr where
  | ok
  | eof
  | other
deriving Repr, DecidableEq

/-- One outcome of hijack.Reader.Read (n bytes plus error component),
together with the oracle outcome of the ws.WriteMessage call the loop
would make for it. -/
structure ReadResult where
  bytes : List Byte
  err : ReadErr
  writeFails : Bool
deriving Repr, DecidableEq

/-- One iteration of the outbound loop: for a non-empty read, the bytes are
written as one binary frame first; a failed write is logged and fatal
before the read error is even examined; then EOF terminates silently and
any other read error is logged and terminates. -/
def outboundStep (r : ReadResult) : List Event × Bool :=
  if !r.bytes.isEmpty && r.writeFails then
    ([.wsWrite r.bytes, .logWsWriteFail], false)
  else
    let wes : List Event :=
      if r.bytes.isEmpty then [] else [.wsWrite r.bytes]
    match r.err with
    | .ok => (wes, true)
    | .eof => (wes, false)
    | .other => (wes ++ [.logDockerReadFail], false)

/-- Trace of the outbound loop run on a list of read outcomes. -/
def outboundLoop : List ReadResult → List Event
  | [] => []
  | r :: rest =>
    let s := outboundStep r
    s.1 ++ (if s.2 then outboundLoop rest else [])

/-- How the outbound loop exits on a given list of read outcomes
(running means the list was exhausted with the loop still blocked). -/
inductive OutExit where
  | running
  | eof
  | readFail
  | writeFail
deriving Repr, DecidableEq

/-- Exit classification of the outbound loop. -/
def outboundExit : List ReadResult → OutExit
  | [] => .running
  | r :: rest =>
    if !r.bytes.isEmpty && r.writeFails then .writeFail
    else
      match r.err with
      | .ok => outboundExit rest
      | .eof => .eof
      | .other => .readFail

/-- Chunks actually consumed and forwarded by the outbound loop: each
non-empty read contributes its bytes as one chunk, and consumption stops
where the loop exits. -/
def chunksRead : List ReadResult → List (List Byte)
  | [] => []
  | r :: rest =>
    (if r.bytes.isEmpty then [] else [r.bytes]) ++
      (if !r.bytes.isEmpty && r.writeFails then []
       else
         match r.err with
         | .ok => chunksRead rest
         | .eof => []
         | .other => [])

/-- Concatenation of all bytes the outbound loop reads before exiting. -/
def bytesRead : List ReadResult → List Byte
  | [] => []
  | r :: rest =>
    r.bytes ++
      (if !r.bytes.isEmpty && r.writeFails then []
       else
         match r.err with
         | .ok => bytesRead rest
         | .eof => []
         | .other => [])

/-! ## attachHandler session lifecycle -/

/-- Observable actions of attachHandler outside the two copy loops. -/
inductive HEvent where
  /-- http.Error written before the websocket upgrade. -/
  | httpError (code : Nat)
  /-- log line: websocket upgrade failed. -/
  | logUpgradeFail
  /-- successful upgrader.Upgrade. -/
  | upgraded
  /-- cli.ContainerExecCreate invoked. -/
  | execCreateReq
  /-- ws.WriteMessage(TextMessage, s) invoked. -/
  | textFrame (s : String)
  /-- cli.ContainerExecAttach invoked. -/
  | execAttachReq
  /-- an action performed inside one of the two copy loops. -/
  | loopEvent (e : Event)
  /-- the shared context cancel function invoked by a defer. -/
  | cancelCall
  /-- hijack.Close invoked (deferred after a successful attach). -/
  | closeHijack
  /-- ws.Close invoked (deferred after a successful upgrade). -/
  | closeWs
deriving Repr, DecidableEq

/-- Oracle outcomes for one run of attachHandler: the request's container
id, whether the upgrade succeeds, the error strings (if any) returned by
ContainerExecCreate and ContainerExecAttach, and the merged trace of the
two copy loops in some interleaving (wg.Wait returns after it). -/
structure HandlerEnv where
  containerID : String
  upgradeOk : Bool
  execCreateErr : Option String
  execAttachErr : Option String
  loopTrace : List Event
deriving Repr, DecidableEq

/-- Trace of one attachHandler run.  Deferred calls run in reverse order of
registration at return: hijack.Close (registered after attach), cancel,
ws.Close (registered after upgrade); wg.Wait precedes the defers, so the
close calls follow every loop event. -/
def attachHandler (env : HandlerEnv) : List HEvent :=
  if env.containerID = "" then [.httpError 400]
  else if !env.upgradeOk then [.logUpgradeFail]
  else
    .upgraded :: .execCreateReq ::
      (match env.execCreateErr with
       | some e =>
         [.textFrame ("exec create error: " ++ e), .cancelCall, .closeWs]
       | none =>
         .execAttachReq ::
           (match env.execAttachErr with
            | some e =>
              [.textFrame ("exec attach error: " ++ e), .cancelCall, .closeWs]
            | none =>
              env.loopTrace.map HEvent.loopEvent ++
                [.closeHijack, .cancelCall, .closeWs]))

/-- Text frames written to the websocket during a handler run. -/
def textFrames (tr : List HEvent) : List String :=
  tr.filterMap fun e =>
    match e with
    | .textFrame s => some s
    | _ => none

/-- Copy-loop events of a handler run. -/
def loopEvents (tr : List HEvent) : List Event :=
  tr.filterMap fun e =>
    match e with
    | .loopEvent x => some x
    | _ => none

/-- True for a loop event or one of the two resource-closing calls; used to
state that both closes come after every loop event. -/
def isLoopOrClose : HEvent → Bool
  | .loopEvent _ => true
  | .closeHijack => true
  | .closeWs => true
  | _ => false

/-! ## resizeHandler (POST /resize) -/

/-- HTTP response: status code and body. -/
structure HttpResp where
  status : Nat
  body : String
deriving Repr, DecidableEq

/-- One cli.ContainerResize call: container id, Width (cols), Height
(rows). -/
structure ContainerResizeCall where
  id : String
  width : Nat
  height : Nat
deriving Repr, DecidableEq

/-- Numeric value of a list of decimal digit characters. -/
def decimalValue (cs : List Char) : Nat :=
  cs.foldl (fun a c => a * 10 + (c.toNat - 48)) 0

/-- Model of strconv.ParseUint(s, 10, 32): succeeds exactly on a non-empty
all-digit string (no sign, no spaces) whose value fits in 32 bits; any
error (syntax or range) is none, matching the handler's err-not-nil
check. -/
def parseUint32 (s : String) : Option Nat :=
  if s.data = [] then none
  else if s.data.all (fun c => c.isDigit) then
    if decimalValue s.data < 2 ^ 32 then some (decimalValue s.data)
    else none
  else none

/-- Trace-level model of resizeHandler: given the oracle outcome of the
ContainerResize call (some e models a failure with error string e) and the
request method and query parameters, return the response and the list of
ContainerResize calls made. -/
def resizeHandler (resizeErr : Option String)
    (method id w h : String) : HttpResp × List ContainerResizeCall :=
  if method ≠ "POST" then (⟨405, "method not allowed"⟩, [])
  else if id = "" then
    (⟨400, "missing \"id\" query parameter"⟩, [])
  else
    match parseUint32 w with
    | none => (⟨400, "invalid \"w\" (cols) parameter"⟩, [])
    | some cols =>
      if cols = 0 then (⟨400, "invalid \"w\" (cols) parameter"⟩, [])
      else
        match parseUint32 h with
        | none => (⟨400, "invalid \"h\" (rows) parameter"⟩, [])
        | some rows =>
          if rows = 0 then (⟨400, "invalid \"h\" (rows) parameter"⟩, [])
          else
            match resizeErr with
            | some e =>
              (⟨500, "resize failed: " ++ e⟩, [⟨id, cols, rows⟩])
            | none => (⟨200, "ok"⟩, [⟨id, cols, rows⟩])

/-- True when a query-parameter string passes the handler's dimension
check: it parses as a 32-bit unsigned integer and is non-zero. -/
def validDim (s : String) : Bool :=
  match parseUint32 s with
  | some v => v != 0
  | none => false

/-! ## Basic unfolding lemmas -/

theorem inboundLoop_cons (parse : List Byte → Option ResizeMsg)
    (m : WsMsg) (rest : List WsMsg) :
    inboundLoop parse (m :: rest) =
      (inboundStep parse m).1 ++
        (if (inboundStep parse m).2 then inboundLoop parse rest else []) :=
  rfl

theorem outboundLoop_cons (r : ReadResult) (rest : List ReadResult) :
    outboundLoop (r :: rest) =
      (outboundStep r).1 ++
        (if (outboundStep r).2 then outboundLoop rest else []) :=
  rfl

theorem wsWrites_append (a b : List Event) :
    wsWrites (a ++ b) = wsWrites a ++ wsWrites b := by
  simp [wsWrites]

theorem execWrites_append (a b : List Event) :
    execWrites (a ++ b) = execWrites a ++ execWrites b := by
  simp [execWrites]

theorem resizeCalls_append (a b : List Event) :
    resizeCalls (a ++ b) = resizeCalls a ++ resizeCalls b := by
  simp [resizeCalls]

theorem wsWrites_nil : wsWrites [] = [] :=
  rfl

theorem wsWrites_wsWrite_cons (b : List Byte) (es : List Event) :
    wsWrites (Event.wsWrite b :: es) = b :: wsWrites es :=
  rfl

theorem wsWrites_logDockerReadFail_cons (es : List Event) :
    wsWrites (Event.logDockerReadFail :: es) = wsWrites es :=
  rfl

theorem classify_some (parse : List Byte → Option ResizeMsg)
    (p : List Byte) (msg : ResizeMsg)
    (hb : p.head? = some braceByte) (hp : parse p = some msg)
    (ht : msg.type = "resize") :
    classify parse p = some msg := by
  simp [classify, hb, hp, ht]

theorem head_brace_ne_nil (p : List Byte)
    (hb : p.head? = some braceByte) : p.isEmpty = false := by
  cases p with
  | nil => simp at hb
  | cons a l => rfl

/-! ## Claim theorems -/

/-- Claim C1: any non-empty inbound payload whose first byte is an opening
brace, which unmarshals successfully with type field equal to resize,
produces exactly one ContainerExecResize call carrying the payload's cols
and rows, and contributes no hijack.Conn.Write: the rest of the inbound
trace is exactly the trace of the remaining messages. -/
theorem resize_frame_one_exec_resize
    (parse : List Byte → Option ResizeMsg) (p : List Byte) (msg : ResizeMsg)
    (rf wf : Bool) (rest : List WsMsg)
    (hb : p.head? = some braceByte)
    (hp : parse p = some msg)
    (ht : msg.type = "resize") :
    resizeCalls (inboundLoop parse (.data p rf wf :: rest)) =
      (msg.cols, msg.rows) :: resizeCalls (inboundLoop parse rest) ∧
    execWrites (inboundLoop parse (.data p rf wf :: rest)) =
      execWrites (inboundLoop parse rest) := by
  have hpe := head_brace_ne_nil p hb
  have hc := classify_some parse p msg hb hp ht
  rw [inboundLoop_cons]
  simp only [inboundStep, hpe, hc]
  cases rf <;>
    simp [resizeCalls_append, execWrites_append, resizeCalls, execWrites]

/-- Claim C4: a non-empty inbound payload is forwarded verbatim to the exec
stream input exactly when it is not consumed as a resize command; payloads
whose first byte is not an opening brace, payloads that fail to unmarshal,
and payloads whose type field differs from resize all fall through to one
hijack.Conn.Write carrying the identical bytes. -/
theorem nonresize_forwarded_verbatim
    (parse : List Byte → Option ResizeMsg) (p : List Byte)
    (rf wf : Bool) (rest : List WsMsg) (hne : p ≠ []) :
    (classify parse p = none →
       inboundLoop parse (.data p rf wf :: rest) =
         .execWrite p ::
           (if wf then [.logDockerWriteFail] else inboundLoop parse rest)) ∧
    (∀ msg, classify parse p = some msg →
       Event.execWrite p ∉ (inboundStep parse (.data p rf wf)).1 ∧
       execWrites (inboundLoop parse (.data p rf wf :: rest)) =
         execWrites (inboundLoop parse rest)) ∧
    (p.head? ≠ some braceByte → classify parse p = none) ∧
    (parse p = none → classify parse p = none) ∧
    (∀ msg, parse p = some msg → msg.type ≠ "resize" →
       classify parse p = none) := by
  have hpe : p.isEmpty = false := by
    cases p with
    | nil => exact absurd rfl hne
    | cons a l => rfl
  refine ⟨?_, ?_, ?_, ?_, ?_⟩
  · intro hc
    rw [inboundLoop_cons]
    simp only [inboundStep, hpe, hc]
    cases wf <;> simp
  · intro msg hc
    constructor
    · simp only [inboundStep, hpe, hc]
      cases rf <;> simp
    · rw [inboundLoop_cons]
      simp only [inboundStep, hpe, hc]
      cases rf <;>
        simp [execWrites_append, execWrites]
  · intro hb
    simp [classify, hb]
  · intro hp
    by_cases hd : p.head? = some braceByte <;> simp [classify, hd, hp]
  · intro msg hp ht
    by_cases hd : p.head? = some braceByte <;> simp [classify, hd, hp, ht]

/-- Claim C8: a failing ContainerExecResize call for an inline resize frame
is logged, the frame is still consumed (no hijack.Conn.Write of its bytes),
and the inbound loop continues identically to the success case. -/
theorem inline_resize_failure_nonfatal
    (parse : List Byte → Option ResizeMsg) (p : List Byte) (msg : ResizeMsg)
    (wf : Bool) (rest : List WsMsg)
    (hb : p.head? = some braceByte)
    (hp : parse p = some msg)
    (ht : msg.type = "resize") :
    inboundLoop parse (.data p true wf :: rest) =
      .execResizeCall msg.cols msg.rows :: .logResizeFail ::
        inboundLoop parse rest ∧
    inboundLoop parse (.data p false wf :: rest) =
      .execResizeCall msg.cols msg.rows :: inboundLoop parse rest ∧
    execWrites (inboundLoop parse (.data p true wf :: rest)) =
      execWrites (inboundLoop parse rest) := by
  have hpe := head_brace_ne_nil p hb
  have hc := classify_some parse p msg hb hp ht
  refine ⟨?_, ?_, ?_⟩ <;>
    · rw [inboundLoop_cons]
      simp [inboundStep, hpe, hc, execWrites_append, execWrites]

/-- Claim C9: two identical well-formed resize frames in immediate
succession yield exactly two ContainerExecResize calls with identical
arguments, and both the sequence of payloads forwarded to the exec input
and the sequence of binary frames written to the websocket are the same as
if the two resize frames were absent. -/
theorem resize_idempotent_framing
    (parse : List Byte → Option ResizeMsg) (p : List Byte) (msg : ResizeMsg)
    (rf1 wf1 rf2 wf2 : Bool) (rest : List WsMsg)
    (hb : p.head? = some braceByte)
    (hp : parse p = some msg)
    (ht : msg.type = "resize") :
    resizeCalls
        (inboundLoop parse (.data p rf1 wf1 :: .data p rf2 wf2 :: rest)) =
      (msg.cols, msg.rows) :: (msg.cols, msg.rows) ::
        resizeCalls (inboundLoop parse rest) ∧
    execWrites
        (inboundLoop parse (.data p rf1 wf1 :: .data p rf2 wf2 :: rest)) =
      execWrites (inboundLoop parse rest) ∧
    wsWrites
        (inboundLoop parse (.data p rf1 wf1 :: .data p rf2 wf2 :: rest)) =
      wsWrites (inboundLoop parse rest) := by
  have hpe := head_brace_ne_nil p hb
  have hc := classify_some parse p msg hb hp ht
  refine ⟨?_, ?_, ?_⟩ <;>
    · rw [inboundLoop_cons, inboundLoop_cons]
      simp only [inboundStep, hpe, hc]
      cases rf1 <;> cases rf2 <;>
        simp [resizeCalls_append, execWrites_append, wsWrites_append,
          resizeCalls, execWrites, wsWrites]

/-- Claim C10: the inline resize path validates nothing about the
dimensions: a brace-initial payload unmarshalling to type resize with cols
and rows both zero (as the cited literal payloads do under Go zero-value
unmarshalling) is consumed as a resize command, triggers exactly one
ContainerExecResize call with the zero values, and is never forwarded as
terminal input. -/
theorem inline_resize_no_validation
    (parse : List Byte → Option ResizeMsg) (p : List Byte)
    (rf wf : Bool) (rest : List WsMsg)
    (hb : p.head? = some braceByte)
    (hp : parse p = some ⟨"resize", 0, 0⟩) :
    resizeCalls (inboundLoop parse (.data p rf wf :: rest)) =
      (0, 0) :: resizeCalls (inboundLoop parse rest) ∧
    execWrites (inboundLoop parse (.data p rf wf :: rest)) =
      execWrites (inboundLoop parse rest) := by
  have hpe := head_brace_ne_nil p hb
  have hc := classify_some parse p ⟨"resize", 0, 0⟩ hb hp rfl
  rw [inboundLoop_cons]
  simp only [inboundStep, hpe, hc]
  cases rf <;>
    simp [resizeCalls_append, execWrites_append, resizeCalls, execWrites]

/-- Claim C2: whenever the websocket writes succeed, the binary frames the
outbound loop writes are exactly the non-empty chunks it read, in order
(each non-empty read becomes one frame, empty reads become none), their
concatenation equals the concatenation of all bytes read before the loop
exits, and a final read returning both bytes and an error still has its
bytes forwarded. -/
theorem outbound_bytes_preserved (rs : List ReadResult)
    (hw : ∀ r ∈ rs, r.writeFails = false) :
    wsWrites (outboundLoop rs) = chunksRead rs ∧
    (wsWrites (outboundLoop rs)).flatten = bytesRead rs ∧
    [] ∉ chunksRead rs := by
  induction rs with
  | nil => simp [outboundLoop, chunksRead, bytesRead, wsWrites_nil]
  | cons r rest ih =>
    have hr : r.writeFails = false := hw r (List.mem_cons_self r rest)
    have ih' := ih fun x hx => hw x (List.mem_cons_of_mem r hx)
    have hflat : (chunksRead rest).flatten = bytesRead rest := by
      rw [← ih'.1]
      exact ih'.2.1
    rw [outboundLoop_cons]
    cases hbe : r.bytes.isEmpty with
    | true =>
      have hb0 : r.bytes = [] := by
        cases hby : r.bytes with
        | nil => rfl
        | cons a l => rw [hby] at hbe; simp at hbe
      cases he : r.err <;>
        simp [outboundStep, chunksRead, bytesRead, hbe, hb0, hr, he,
          wsWrites_append, wsWrites_nil, wsWrites_wsWrite_cons,
          wsWrites_logDockerReadFail_cons, ih'.1, ih'.2.1, ih'.2.2, hflat]
    | false =>
      have hb0 : r.bytes ≠ [] := by
        intro h
        rw [h] at hbe
        simp at hbe
      cases he : r.err <;>
        simp [outboundStep, chunksRead, bytesRead, hbe, hr, he,
          wsWrites_append, wsWrites_nil, wsWrites_wsWrite_cons,
          wsWrites_logDockerReadFail_cons, ih'.1, ih'.2.1, ih'.2.2,
          hflat, Ne.symm hb0]

/-- Claim C5: with no websocket write failure, the outbound loop terminates
without any error log exactly when the read returned clean end-of-stream;
a non-EOF read error is logged and terminates; and a websocket write
failure (which is how a violated 10-second deadline surfaces) is fatal:
the loop performs exactly that one write attempt, logs, and returns
without touching later reads. -/
theorem outbound_exit_classification :
    (∀ rs : List ReadResult, (∀ r ∈ rs, r.writeFails = false) →
       (outboundExit rs = .eof →
          ∀ e ∈ outboundLoop rs, isErrorLog e = false) ∧
       (outboundExit rs = .readFail →
          Event.logDockerReadFail ∈ outboundLoop rs) ∧
       (outboundExit rs ≠ .running →
          (∀ e ∈ outboundLoop rs, isErrorLog e = false) →
          outboundExit rs = .eof)) ∧
    (∀ (r : ReadResult) (rest : List ReadResult),
       r.bytes ≠ [] → r.writeFails = true →
       outboundLoop (r :: rest) = [.wsWrite r.bytes, .logWsWriteFail] ∧
       outboundExit (r :: rest) = .writeFail) := by
  constructor
  · intro rs
    induction rs with
    | nil =>
      intro _
      refine ⟨?_, ?_, ?_⟩ <;> simp [outboundExit, outboundLoop]
    | cons r rest ih =>
      intro hw
      have hr : r.writeFails = false := hw r (List.mem_cons_self r rest)
      have ih' := ih fun x hx => hw x (List.mem_cons_of_mem r hx)
      have hwes : ∀ e ∈ (if r.bytes.isEmpty then ([] : List Event)
          else [Event.wsWrite r.bytes]), isErrorLog e = false := by
        by_cases hbe : r.bytes.isEmpty <;> simp [hbe, isErrorLog]
      cases he : r.err with
      | ok =>
        have hexit : outboundExit (r :: rest) = outboundExit rest := by
          simp [outboundExit, hr, he]
        have hloop : outboundLoop (r :: rest) =
            (if r.bytes.isEmpty then ([] : List Event)
              else [Event.wsWrite r.bytes]) ++ outboundLoop rest := by
          rw [outboundLoop_cons]
          simp [outboundStep, hr, he]
        refine ⟨?_, ?_, ?_⟩
        · intro hex e hme
          rw [hloop] at hme
          rcases List.mem_append.mp hme with hA | hB
          · exact hwes e hA
          · exact ih'.1 (by rw [← hexit]; exact hex) e hB
        · intro hex
          rw [hloop]
          exact List.mem_append.mpr
            (Or.inr (ih'.2.1 (by rw [← hexit]; exact hex)))
        · intro hnr hall
          rw [hexit]
          refine ih'.2.2 (by rw [← hexit]; exact hnr) ?_
          intro e he'
          exact hall e (by rw [hloop]; exact List.mem_append.mpr (Or.inr he'))
      | eof =>
        have hexit : outboundExit (r :: rest) = .eof := by
          simp [outboundExit, hr, he]
        have hloop : outboundLoop (r :: rest) =
            (if r.bytes.isEmpty then ([] : List Event)
              else [Event.wsWrite r.bytes]) := by
          rw [outboundLoop_cons]
          simp [outboundStep, hr, he]
        refine ⟨?_, ?_, ?_⟩
        · intro _ e hme
          rw [hloop] at hme
          exact hwes e hme
        · intro hex
          rw [hexit] at hex
          simp at hex
        · intro _ _
          exact hexit
      | other =>
        have hexit : outboundExit (r :: rest) = .readFail := by
          simp [outboundExit, hr, he]
        have hloop : outboundLoop (r :: rest) =
            (if r.bytes.isEmpty then ([] : List Event)
              else [Event.wsWrite r.bytes]) ++ [Event.logDockerReadFail] := by
          rw [outboundLoop_cons]
          simp [outboundStep, hr, he]
        refine ⟨?_, ?_, ?_⟩
        · intro hex
          rw [hexit] at hex
          simp at hex
        · intro _
          rw [hloop]
          exact List.mem_append.mpr (Or.inr (by simp))
        · intro _ hall
          exfalso
          have hlog := hall Event.logDockerReadFail
            (by rw [hloop]; exact List.mem_append.mpr (Or.inr (by simp)))
          simp [isErrorLog] at hlog
  · intro r rest hb hwf
    have hbe : r.bytes.isEmpty = false := by
      cases hby : r.bytes with
      | nil => exact absurd hby hb
      | cons a l => rfl
    constructor
    · rw [outboundLoop_cons]
      simp [outboundStep, hbe, hwf]
    · simp [outboundExit, hbe, hwf]

/-- True exactly for the hijack.Close event. -/
def isCloseHijack : HEvent → Bool
  | .closeHijack => true
  | _ => false

/-- True exactly for the ws.Close event. -/
def isCloseWs : HEvent → Bool
  | .closeWs => true
  | _ => false

theorem filter_closeHijack_map_loopEvent (lt : List Event) :
    (lt.map HEvent.loopEvent).filter isCloseHijack = [] := by
  induction lt with
  | nil => rfl
  | cons a l ih => simp [isCloseHijack, ih]

theorem filter_closeWs_map_loopEvent (lt : List Event) :
    (lt.map HEvent.loopEvent).filter isCloseWs = [] := by
  induction lt with
  | nil => rfl
  | cons a l ih => simp [isCloseWs, ih]

theorem filter_loopOrClose_map_loopEvent (lt : List Event) :
    (lt.map HEvent.loopEvent).filter isLoopOrClose =
      lt.map HEvent.loopEvent := by
  induction lt with
  | nil => rfl
  | cons a l ih => simp [isLoopOrClose, ih]

/-- Claim C3: in a session where exec create and attach both succeed, the
handler closes the hijacked exec connection exactly once and the websocket
exactly once, and restricted to loop events and close events the full
handler trace is the loop trace followed by the two closes: both closes
happen only after both copy loops have returned (wg.Wait precedes the
deferred closes). -/
theorem teardown_close_once_after_loops (env : HandlerEnv)
    (hid : env.containerID ≠ "") (hup : env.upgradeOk = true)
    (hc : env.execCreateErr = none) (ha : env.execAttachErr = none) :
    ((attachHandler env).filter isCloseHijack).length = 1 ∧
    ((attachHandler env).filter isCloseWs).length = 1 ∧
    (attachHandler env).filter isLoopOrClose =
      env.loopTrace.map HEvent.loopEvent ++
        [HEvent.closeHijack, HEvent.closeWs] := by
  have htr : attachHandler env =
      [HEvent.upgraded, HEvent.execCreateReq, HEvent.execAttachReq] ++
        env.loopTrace.map HEvent.loopEvent ++
        [HEvent.closeHijack, HEvent.cancelCall, HEvent.closeWs] := by
    simp [attachHandler, hid, hup, hc, ha]
  rw [htr]
  refine ⟨?_, ?_, ?_⟩ <;>
    simp [List.filter_append, filter_closeHijack_map_loopEvent,
      filter_closeWs_map_loopEvent, filter_loopOrClose_map_loopEvent,
      isCloseHijack, isCloseWs, isLoopOrClose]

/-- Claim C6: when exec creation or exec attachment fails, exactly one
explanatory text frame is written to the already-upgraded websocket, the
handler returns with no copy loop ever started and no retry, and in the
create-failure case no exec attach is attempted; in neither failure case
is the hijacked connection ever closed (it was never acquired). -/
theorem session_start_failure_single_frame (env : HandlerEnv) (e : String)
    (hid : env.containerID ≠ "") (hup : env.upgradeOk = true) :
    (env.execCreateErr = some e →
       attachHandler env =
         [HEvent.upgraded, HEvent.execCreateReq,
          HEvent.textFrame ("exec create error: " ++ e),
          HEvent.cancelCall, HEvent.closeWs] ∧
       textFrames (attachHandler env) = ["exec create error: " ++ e] ∧
       loopEvents (attachHandler env) = [] ∧
       HEvent.execAttachReq ∉ attachHandler env ∧
       HEvent.closeHijack ∉ attachHandler env) ∧
    (env.execCreateErr = none → env.execAttachErr = some e →
       attachHandler env =
         [HEvent.upgraded, HEvent.execCreateReq, HEvent.execAttachReq,
          HEvent.textFrame ("exec attach error: " ++ e),
          HEvent.cancelCall, HEvent.closeWs] ∧
       textFrames (attachHandler env) = ["exec attach error: " ++ e] ∧
       loopEvents (attachHandler env) = [] ∧
       HEvent.closeHijack ∉ attachHandler env) := by
  constructor
  · intro hcr
    have htr : attachHandler env =
        [HEvent.upgraded, HEvent.execCreateReq,
         HEvent.textFrame ("exec create error: " ++ e),
         HEvent.cancelCall, HEvent.closeWs] := by
      simp [attachHandler, hid, hup, hcr]
    rw [htr]
    refine ⟨rfl, ?_, ?_, ?_, ?_⟩ <;> simp [textFrames, loopEvents]
  · intro hcr hat
    have htr : attachHandler env =
        [HEvent.upgraded, HEvent.execCreateReq, HEvent.execAttachReq,
         HEvent.textFrame ("exec attach error: " ++ e),
         HEvent.cancelCall, HEvent.closeWs] := by
      simp [attachHandler, hid, hup, hcr, hat]
    rw [htr]
    refine ⟨rfl, ?_, ?_, ?_⟩ <;> simp [textFrames, loopEvents]

/-- Claim C7: for every POST request to /resize, the response is 400
exactly when the id is missing or a dimension parameter fails the
parse-as-uint32-and-nonzero check; no ContainerResize call is made in any
400 case; and when id is present and both dimensions validate, exactly one
ContainerResize call is made with those dimensions and the response is
200 with body ok on success and 500 on a runtime resize failure. -/
theorem resize_endpoint_validation (rerr : Option String)
    (method id w h : String) (hm : method = "POST") :
    ((resizeHandler rerr method id w h).1.status = 400 ↔
       id = "" ∨ validDim w = false ∨ validDim h = false) ∧
    ((resizeHandler rerr method id w h).1.status = 400 →
       (resizeHandler rerr method id w h).2 = []) ∧
    (∀ c r, id ≠ "" → parseUint32 w = some c → c ≠ 0 →
       parseUint32 h = some r → r ≠ 0 →
       (resizeHandler rerr method id w h).2 = [⟨id, c, r⟩] ∧
       (rerr = none →
          (resizeHandler rerr method id w h).1 = ⟨200, "ok"⟩) ∧
       (∀ e, rerr = some e →
          (resizeHandler rerr method id w h).1.status = 500)) := by
  subst hm
  by_cases hid : id = ""
  · simp [resizeHandler, hid, validDim]
  · cases hpw : parseUint32 w with
    | none => simp [resizeHandler, hid, hpw, validDim]
    | some c =>
      by_cases hc : c = 0
      · simp [resizeHandler, hid, hpw, hc, validDim]
        intro c' r' h1 h2 _
        exact absurd h1.symm h2
      · cases hph : parseUint32 h with
        | none => simp [resizeHandler, hid, hpw, hc, hph, validDim]
        | some r =>
          by_cases hr : r = 0
          · simp [resizeHandler, hid, hpw, hc, hph, hr, validDim]
          · cases rerr with
            | none =>
              simp [resizeHandler, hid, hpw, hc, hph, hr, validDim]
            | some e =>
              simp [resizeHandler, hid, hpw, hc, hph, hr, validDim]

/-! ## Witnesses -/

/-- Witness: a concrete resize frame produces exactly one exec resize call
and no exec input write. -/
theorem resize_frame_one_exec_resize_witness :
    resizeCalls (inboundLoop (fun _ => some ⟨"resize", 120, 40⟩)
        [WsMsg.data [123] false false]) = [(120, 40)] ∧
    execWrites (inboundLoop (fun _ => some ⟨"resize", 120, 40⟩)
        [WsMsg.data [123] false false]) = [] := by
  have hw := resize_frame_one_exec_resize
    (fun _ => some ⟨"resize", 120, 40⟩) [123] ⟨"resize", 120, 40⟩
    false false [] rfl rfl rfl
  exact ⟨by simpa [inboundLoop, resizeCalls] using hw.1,
    by simpa [inboundLoop, execWrites] using hw.2⟩

/-- Witness: a concrete two-read run forwards exactly the bytes read. -/
theorem outbound_bytes_preserved_witness :
    wsWrites (outboundLoop
        [⟨[104, 105], ReadErr.ok, false⟩, ⟨[33], ReadErr.eof, false⟩]) =
      chunksRead
        [⟨[104, 105], ReadErr.ok, false⟩, ⟨[33], ReadErr.eof, false⟩] ∧
    (wsWrites (outboundLoop
        [⟨[104, 105], ReadErr.ok, false⟩,
         ⟨[33], ReadErr.eof, false⟩])).flatten =
      bytesRead
        [⟨[104, 105], ReadErr.ok, false⟩, ⟨[33], ReadErr.eof, false⟩] ∧
    [] ∉ chunksRead
        [⟨[104, 105], ReadErr.ok, false⟩, ⟨[33], ReadErr.eof, false⟩] :=
  outbound_bytes_preserved
    [⟨[104, 105], ReadErr.ok, false⟩, ⟨[33], ReadErr.eof, false⟩]
    (by decide)

/-- Witness: a concrete successful session closes each resource once after
the loop events. -/
theorem teardown_close_once_after_loops_witness :
    ((attachHandler
        ⟨"abc123", true, none, none, [Event.wsWrite [104]]⟩).filter
          isCloseHijack).length = 1 ∧
    ((attachHandler
        ⟨"abc123", true, none, none, [Event.wsWrite [104]]⟩).filter
          isCloseWs).length = 1 ∧
    (attachHandler
        ⟨"abc123", true, none, none, [Event.wsWrite [104]]⟩).filter
          isLoopOrClose =
      [Event.wsWrite [104]].map HEvent.loopEvent ++
        [HEvent.closeHijack, HEvent.closeWs] :=
  teardown_close_once_after_loops
    ⟨"abc123", true, none, none, [Event.wsWrite [104]]⟩
    (by decide) rfl rfl rfl

/-- Witness: a concrete non-brace payload is forwarded verbatim. -/
theorem nonresize_forwarded_verbatim_witness :
    inboundLoop (fun _ => none) [WsMsg.data [104, 105] false false] =
      [Event.execWrite [104, 105]] := by
  have hw := nonresize_forwarded_verbatim (fun _ => none) [104, 105]
    false false [] (by decide)
  simpa [inboundLoop] using hw.1 rfl

/-- Witness: a concrete failing write is fatal after one write attempt, and
a concrete clean end-of-stream run contains no error log. -/
theorem outbound_exit_classification_witness :
    outboundLoop [⟨[104], ReadErr.other, true⟩] =
      [Event.wsWrite [104], Event.logWsWriteFail] ∧
    outboundExit [⟨[104], ReadErr.other, true⟩] = OutExit.writeFail ∧
    isErrorLog (Event.wsWrite [104]) = false := by
  have h2 := outbound_exit_classification.2 ⟨[104], ReadErr.other, true⟩ []
    (by decide) rfl
  have h1 := (outbound_exit_classification.1
    [⟨[104], ReadErr.eof, false⟩] (by decide)).1 rfl
    (Event.wsWrite [104]) (by simp [outboundLoop, outboundStep])
  exact ⟨h2.1, h2.2, h1⟩

/-- Witness: a concrete exec-create failure writes exactly one text frame
and starts no loop. -/
theorem session_start_failure_single_frame_witness :
    attachHandler ⟨"abc123", true, some "boom", none, []⟩ =
      [HEvent.upgraded, HEvent.execCreateReq,
       HEvent.textFrame ("exec create error: " ++ "boom"),
       HEvent.cancelCall, HEvent.closeWs] ∧
    textFrames (attachHandler ⟨"abc123", true, some "boom", none, []⟩) =
      ["exec create error: " ++ "boom"] ∧
    loopEvents (attachHandler ⟨"abc123", true, some "boom", none, []⟩) =
      [] := by
  have hw := (session_start_failure_single_frame
    ⟨"abc123", true, some "boom", none, []⟩ "boom" (by decide) rfl).1 rfl
  exact ⟨hw.1, hw.2.1, hw.2.2.1⟩

/-- Witness: the Scenario D request with a zero width parameter yields 400
and no ContainerResize call. -/
theorem resize_endpoint_validation_witness :
    (resizeHandler none "POST" "abc123" "0" "40").1.status = 400 ∧
    (resizeHandler none "POST" "abc123" "0" "40").2 = [] := by
  have hw := resize_endpoint_validation none "POST" "abc123" "0" "40" rfl
  have h400 : (resizeHandler none "POST" "abc123" "0" "40").1.status = 400 :=
    hw.1.mpr (Or.inr (Or.inl (by decide)))
  exact ⟨h400, hw.2.1 h400⟩

/-- Witness: a concrete failing inline resize is logged and the loop
continues. -/
theorem inline_resize_failure_nonfatal_witness :
    inboundLoop (fun _ => some ⟨"resize", 80, 24⟩)
        [WsMsg.data [123] true false] =
      [Event.execResizeCall 80 24, Event.logResizeFail] ∧
    inboundLoop (fun _ => some ⟨"resize", 80, 24⟩)
        [WsMsg.data [123] false false] =
      [Event.execResizeCall 80 24] := by
  have hw := inline_resize_failure_nonfatal
    (fun _ => some ⟨"resize", 80, 24⟩) [123] ⟨"resize", 80, 24⟩
    false [] rfl rfl rfl
  exact ⟨by simpa [inboundLoop] using hw.1,
    by simpa [inboundLoop] using hw.2.1⟩

/-- Witness: a concrete duplicated resize frame yields two identical calls
and leaves the data stream empty. -/
theorem resize_idempotent_framing_witness :
    resizeCalls (inboundLoop (fun _ => some ⟨"resize", 100, 30⟩)
        [WsMsg.data [123] false false, WsMsg.data [123] false false]) =
      [(100, 30), (100, 30)] ∧
    execWrites (inboundLoop (fun _ => some ⟨"resize", 100, 30⟩)
        [WsMsg.data [123] false false, WsMsg.data [123] false false]) =
      [] := by
  have hw := resize_idempotent_framing
    (fun _ => some ⟨"resize", 100, 30⟩) [123] ⟨"resize", 100, 30⟩
    false false false false [] rfl rfl rfl
  exact ⟨by simpa [inboundLoop, resizeCalls] using hw.1,
    by simpa [inboundLoop, execWrites] using hw.2.1⟩

/-- Witness: a concrete resize frame carrying zero dimensions still
triggers one exec resize call with the zeros and is not forwarded. -/
theorem inline_resize_no_validation_witness :
    resizeCalls (inboundLoop (fun _ => some ⟨"resize", 0, 0⟩)
        [WsMsg.data [123] false false]) = [(0, 0)] ∧
    execWrites (inboundLoop (fun _ => some ⟨"resize", 0, 0⟩)
        [WsMsg.data [123] false false]) = [] := by
  have hw := inline_resize_no_validation (fun _ => some ⟨"resize", 0, 0⟩)
    [123] false false [] rfl rfl
  exact ⟨by simpa [inboundLoop, resizeCalls] using hw.1,
    by simpa [inboundLoop, execWrites] using hw.2⟩

end PtyProxy
